import Mathlib

/-!
# Gumo rando-league: verification of the weekly-league core

Shallow embedding of the league cycle logic of the Gumo Discord bot
(`gumo/modules/league.py`, `gumo/api/sheet.py`, `gumo/api/core.py`,
`gumo/api/models.py`) together with proofs settling the spec claims.

Timestamps are modelled as US/Eastern *wall-clock* instants: a day index
(days since 1970-01-01) plus seconds into the day.  This matches the
Python code, which works on timezone-aware `datetime.now(EASTERN_TZ)`
values and performs `timedelta` arithmetic, which in Python is plain
wall-clock field arithmetic.  External collaborators (the seeded PRNG
`random.Random(key).randint(1, 10**9)`, the non-seeded `random.randint`,
and the seed-generation HTTP API) are modelled as explicit function
arguments, so every theorem quantifies over their behaviour.
-/

namespace Gumo

/-- A US/Eastern wall-clock instant: `days` since 1970-01-01 (which was a
Thursday) and `secs` seconds into that day.  A real instant has
`0 ≤ secs < 86400`; we also restrict `days` to the range representable by
Python `datetime` years (backed off to a generous sub-range), see
`Instant.valid`. -/
structure Instant where
  days : ℤ
  secs : ℤ
  deriving DecidableEq, Repr

/-- Normalized instant: seconds in range, and days within a range where the
formatted year has exactly four digits (Python `datetime` only represents
years 1 to 9999; `%Y` renders years 1000-9999 with exactly 4 digits). -/
def Instant.valid (t : Instant) : Prop :=
  0 ≤ t.secs ∧ t.secs < 86400 ∧ -100000 ≤ t.days ∧ t.days ≤ 2900000

instance (t : Instant) : Decidable t.valid := by
  unfold Instant.valid; infer_instance

/-- Total seconds since the epoch (in wall-clock terms). -/
def Instant.toSecs (t : Instant) : ℤ := t.days * 86400 + t.secs

/-- Rebuild a normalized instant from total wall-clock seconds; this is how
Python `datetime` keeps its fields normalized after `timedelta` arithmetic. -/
def Instant.ofSecs (n : ℤ) : Instant := ⟨n / 86400, n % 86400⟩

/-- `t - timedelta(seconds = n)` on a (timezone-aware or naive) Python
`datetime`: wall-clock subtraction with renormalization. -/
def Instant.subSecs (t : Instant) (n : ℤ) : Instant := Instant.ofSecs (t.toSecs - n)

/-- `t + timedelta(days = 7)`: wall-clock day shift. -/
def Instant.addDays (t : Instant) (n : ℤ) : Instant := ⟨t.days + n, t.secs⟩

/-- Python `date.weekday()` for a day index (Monday = 0 ... Sunday = 6);
1970-01-01 was a Thursday (= 3). -/
def pyWeekday (d : ℤ) : ℤ := (d + 3) % 7

/-- `get_week_start_date` (league.py lines 93-101), before the `strftime`
step: subtract 21 hours, then step back to the most recent Friday on or
before the shifted timestamp.  Returns the day index of that Friday. -/
def getWeekStartDate (t : Instant) : ℤ :=
  let date := t.subSecs (21 * 3600)
  date.days - (pyWeekday date.days - 4 + 7) % 7

/-- The league window that starts on Friday `f` at 21:00 Eastern: membership
of an instant, expressed on total wall-clock seconds. -/
def inWindow (f : ℤ) (t : Instant) : Prop :=
  f * 86400 + 75600 ≤ t.toSecs ∧ t.toSecs < f * 86400 + 75600 + 7 * 86400

instance (f : ℤ) (t : Instant) : Decidable (inWindow f t) := by
  unfold inWindow; infer_instance

/-- Two instants fall in the same Friday-21:00-Eastern-to-next-Friday-21:00
window. -/
def sameWindow (t1 t2 : Instant) : Prop :=
  ∃ f : ℤ, pyWeekday f = 4 ∧ inWindow f t1 ∧ inWindow f t2

/-!
## Gregorian calendar rendering

`get_week_start_date` returns `last_friday.strftime('%Y-%m-%d')`.  We model
the rendering with a plain iterative Gregorian calendar (proleptic, pivoted
at 1600-01-01 which lies 135140 days before the 1970-01-01 epoch), the same
calendar Python's `datetime` uses, rendered as zero-padded `YYYY-MM-DD`.
-/

/-- Gregorian leap-year test. -/
def isLeap (y : ℕ) : Bool := (y % 4 == 0 && y % 100 != 0) || (y % 400 == 0)

/-- Number of days in year `y`. -/
def daysInYear (y : ℕ) : ℕ := if isLeap y then 366 else 365

/-- Walk forward from year `y`, consuming whole years from the day count `n`;
returns the final year and the day-of-year (0-based).  Structural recursion
on a fuel bound (any `fuel > n` gives the fixpoint, since `n` strictly
decreases at every step). -/
def yearAndDoyGo : ℕ → ℕ → ℕ → ℕ × ℕ
  | 0, y, n => (y, n)
  | fuel + 1, y, n =>
    if n < daysInYear y then (y, n) else yearAndDoyGo fuel (y + 1) (n - daysInYear y)

/-- Year and 0-based day-of-year reached from year `y` after `n` days. -/
def yearAndDoy (y n : ℕ) : ℕ × ℕ := yearAndDoyGo (n + 1) y n

/-- Month lengths of a (non-)leap year, January first. -/
def monthLengths (leap : Bool) : List ℕ :=
  [31, if leap then 29 else 28, 31, 30, 31, 30, 31, 31, 30, 31, 30, 31]

/-- Walk along the month lengths, consuming whole months from the 0-based
day-of-year; returns the month number and the 1-based day-of-month. -/
def monthAndDay : List ℕ → ℕ → ℕ → ℕ × ℕ
  | [], m, n => (m, n + 1)
  | len :: rest, m, n => if n < len then (m, n + 1) else monthAndDay rest (m + 1) (n - len)

/-- The Gregorian date `(year, month, day)` of day index `z` (days since
1970-01-01), for `z ≥ -135140` (i.e. on/after 1600-01-01). -/
def civilFromDays (z : ℤ) : ℕ × ℕ × ℕ :=
  let p := yearAndDoy 1600 (z + 135140).toNat
  let md := monthAndDay (monthLengths (isLeap p.1)) 1 p.2
  (p.1, md.1, md.2)

/-- The decimal digit character of `n < 10`. -/
def digitChar (n : ℕ) : Char := Char.ofNat (48 + n)

/-- Exactly `w` decimal digits of `n` (zero padded), most significant first. -/
def digitsFixed : ℕ → ℕ → List Char
  | 0, _ => []
  | w + 1, n => digitsFixed w (n / 10) ++ [digitChar (n % 10)]

/-- `strftime('%Y-%m-%d')`: zero-padded `YYYY-MM-DD` rendering of a day
index. -/
def formatDate (z : ℤ) : String :=
  let c := civilFromDays z
  ⟨digitsFixed 4 c.1 ++ '-' :: (digitsFixed 2 c.2.1 ++ '-' :: digitsFixed 2 c.2.2)⟩

/-- The full `get_week_start_date` of league.py: week-start Friday rendered
as the `YYYY-MM-DD` week key string. -/
def getWeekStartDateStr (t : Instant) : String := formatDate (getWeekStartDate t)

/-- `get_current_week_start_date` (league.py lines 85-91): the week key of
the current instant. -/
def getCurrentWeekStartDate (now : Instant) : String := getWeekStartDateStr now

/-!
## The spreadsheet ledger, roster and settings store
-/

/-- One row of the `S<season> Raw Data` ledger worksheet, in the column
order the code appends: week key, submission timestamp, runner name,
time (or `DNF`), vod link. -/
structure LedgerRow where
  week : String
  timestamp : String
  runner : String
  time : String
  vod : String
  deriving DecidableEq, Repr

/-- One row of the sqlite `league_settings` table:
`(date TEXT, name TEXT, value TEXT, PRIMARY KEY(date, name))`. -/
structure Setting where
  date : String
  name : String
  value : String
  deriving DecidableEq, Repr

/-- `_get_submissions` (league.py 316-327): runner names of the ledger rows
whose `Week` field equals the given week key. -/
def getSubmissions (ledger : List LedgerRow) (weekKey : String) : List String :=
  (ledger.filter (fun r => r.week == weekKey)).map (fun r => r.runner)

/-- `set(runners) ^ set(submissions)` — the missing-runner computation of
league.py (lines 186, 245) and sheet.py `get_missing_runners` (line 102):
a symmetric difference, not a set difference. -/
def missingRunners (runners subs : List String) : Finset String :=
  symmDiff runners.toFinset subs.toFinset

/-- An enumeration of `set(runners) ^ set(submissions)`: each element of the
symmetric difference exactly once (Python set iteration yields every member
once, in an unspecified order; this fixes one such order). -/
def missingList (runners subs : List String) : List String :=
  (runners.dedup.filter (fun r => !(subs.contains r))) ++
    (subs.dedup.filter (fun r => !(runners.contains r)))

/-- `SELECT * FROM league_settings WHERE date = ?`. -/
def settingsForDate (settings : List Setting) (d : String) : List Setting :=
  settings.filter (fun s => s.date == d)

/-- `fetchone` of `SELECT value FROM league_settings WHERE date = ? AND
name = 'seed_name'` (league.py 131-132). -/
def fetchSeedName (settings : List Setting) (d : String) : Option String :=
  ((settings.filter (fun s => s.date == d && s.name == "seed_name")).head?).map
    (fun s => s.value)

/-- Lookup in the Python dict comprehension over settings rows
(league.py 483): on duplicate names the last row wins. -/
def dictValue (rows : List Setting) (n : String) : Option String :=
  ((rows.filter (fun s => s.name == n)).getLast?).map (fun s => s.value)

/-- One row of the upsert
`INSERT INTO league_settings ... ON CONFLICT(date, name) DO UPDATE SET
value = excluded.value` (league.py 379-381).  The trailing
`ON CONFLICT(date, value) DO NOTHING` clause would only fire on a
`(date, value)` unique constraint, which no schema in the repository
declares; it is inert here. -/
def upsertSetting (settings : List Setting) (d n v : String) : List Setting :=
  if settings.any (fun s => s.date == d && s.name == n) then
    settings.map (fun s => if s.date == d && s.name == n then { s with value := v } else s)
  else settings ++ [⟨d, n, v⟩]

/-- `executemany` of the upsert over the submitted entries. -/
def upsertSettings (settings : List Setting) (d : String)
    (entries : List (String × String)) : List Setting :=
  entries.foldl (fun acc e => upsertSetting acc d e.1 e.2) settings

/-- `should_extend_week` (league.py 116-134).  `derive` models the stdlib
seeded PRNG call `str(random.Random(week_key).randint(1, 10**9))`: a fixed
deterministic function of the week-key string.  Note the comparison uses the
PRNG value of the current week key directly, not any stored current-week
`seed_name` override. -/
def shouldExtendWeek (settings : List Setting) (derive : String → String)
    (date : Instant) : Bool :=
  let currentWeekStartDate := getWeekStartDateStr date
  let nextWeekStartDate := getWeekStartDateStr (date.addDays 7)
  match fetchSeedName settings nextWeekStartDate with
  | none => false
  | some v => v == derive currentWeekStartDate

/-!
## Seed API request construction (api/core.py, api/models.py)
-/

/-- Python `x or default` for an optional string: `None` and `""` are falsy. -/
def pyOr (v : Option String) (d : String) : String :=
  match v with
  | none => d
  | some s => if s = "" then d else s

/-- `models.KEY_MODES`. -/
def KEY_MODES : List (String × String) :=
  [("None", "Default"), ("Shards", "Shards"), ("Limitkeys", "Limitkeys"),
   ("Clues", "Clues"), ("Free", "Free")]

/-- `models.GOAL_MODES`. -/
def GOAL_MODES : List (String × String) :=
  [("None", ""), ("Force Trees", "ForceTrees"), ("World Tour", "WorldTour"),
   ("Force Maps", "ForceMaps"), ("Warmth Frags", "WarmthFrags"), ("Bingo", "Bingo")]

/-- `models.ITEM_POOLS`. -/
def ITEM_POOLS : List (String × String) :=
  [("Standard", "Standard"), ("Competitive", "Competitive"), ("Bonus Lite", "Bonus Lite"),
   ("Extra Bonus", "Extra Bonus"), ("Hard", "Hard")]

/-- `models.VARIATIONS`. -/
def VARIATIONS : List (String × String) :=
  [("Starved", "Starved"), ("OHKO", "OHKO"), ("0XP", "0XP"),
   ("Closed Dungeons", "ClosedDungeons"), ("Extra Copies", "DoubleSkills"),
   ("Strict Mapstones", "StrictMapstones"), ("TP Starved", "TPStarved"),
   ("Skip Final Escape", "GoalModeFinish"), ("Wall Starved", "WallStarved"),
   ("Grenade Starved", "GrenadeStarved"), ("In-Logic Warps", "InLogicWarps")]

/-- `models.LOGIC_PATHS`. -/
def LOGIC_PATHS : List (String × String) :=
  [("Casual-core", "casual-core"), ("Casual-dboost", "casual-dboost"),
   ("Standard-core", "standard-core"), ("Standard-dboost", "standard-dboost"),
   ("Standard-lure", "standard-lure"), ("Standard-abilities", "standard-abilities"),
   ("Expert-core", "expert-core"), ("Expert-dboost", "expert-dboost"),
   ("Expert-lure", "expert-lure"), ("Expert-abilities", "expert-abilities"),
   ("Master-core", "master-core"), ("Master-dboost", "master-dboost"),
   ("Master-lure", "master-lure"), ("Dbash", "dbash"), ("Gjump", "gjump"),
   ("Glitched", "glitched"), ("Timed-Level", "timed-level"), ("Insane", "insane")]

/-- `a.startswith(b)` on character lists. -/
def charsStartWith : List Char → List Char → Bool
  | _, [] => true
  | [], _ :: _ => false
  | c :: cs, d :: ds => c == d && charsStartWith cs ds

/-- Python `str.startswith`. -/
def strStartsWith (s p : String) : Bool := charsStartWith s.data p.data

/-- `[v for k, v in models.LOGIC_PATHS.items() if k.startswith(p)]`. -/
def pathsWithKeyStart (p : String) : List String :=
  (LOGIC_PATHS.filter (fun kv => strStartsWith kv.1 p)).map (fun kv => kv.2)

/-- Single dict access `[models.LOGIC_PATHS[k]]` for a statically-present
key, written as a filter to stay within the table. -/
def logicPathOf (k : String) : List String :=
  (LOGIC_PATHS.filter (fun kv => kv.1 == k)).map (fun kv => kv.2)

/-- `PATHS_INHERITENCE` (core.py 20-30); `none` models the `KeyError` raised
on an unknown logic mode. -/
def PATHS_INHERITENCE (lm : String) : Option (List String) :=
  let casual := pathsWithKeyStart "Casual"
  let standard := casual ++ pathsWithKeyStart "Standard"
  let expert := standard ++ pathsWithKeyStart "Expert" ++ logicPathOf "Dbash"
  let master := expert ++ pathsWithKeyStart "Master"
  let glitched := expert ++ logicPathOf "Glitched" ++ logicPathOf "Timed-Level"
  match lm with
  | "Casual" => some casual
  | "Standard" => some standard
  | "Expert" => some expert
  | "Master" => some master
  | "Glitched" => some glitched
  | _ => none

/-- The scalar arguments of `_get_seed_data` after the `or`-default block
(core.py 58-64).  All values are kept as strings (stored settings come from
a TEXT column; the integer literal 8 renders as "8" in the request). -/
structure ResolvedSeedArgs where
  seedName : String
  logicMode : String
  keyMode : String
  goalMode : String
  spawn : String
  itemPool : String
  relicCount : String
  deriving DecidableEq, Repr

/-- core.py 58-64: the default-resolution step of `_get_seed_data`.
`sysRand` models the non-seeded `str(random.randint(1, 10**9))` fallback. -/
def resolveSeedArgs (seedName logicMode keyMode goalMode spawn itemPool
    relicCount : Option String) (sysRand : String) : ResolvedSeedArgs where
  seedName := pyOr seedName sysRand
  logicMode := pyOr logicMode "Standard"
  keyMode := pyOr keyMode "Clues"
  goalMode := pyOr goalMode "Force Trees"
  spawn := pyOr spawn "Glades"
  itemPool := pyOr itemPool "Standard"
  relicCount := pyOr relicCount "8"

/-- The per-logic-mode extra parameters (core.py 83-94); the literal values
are `PATH_DIFFICULTIES['Hard'] = "Hard"` and `VARIATIONS['Starved'] =
"Starved"`. -/
def presetSpecifics (lm : String) : Finset (String × String) :=
  if lm = "Casual" then {("cell_freq", "20")}
  else if lm = "Standard" then {("cell_freq", "40")}
  else if lm = "Expert" then ∅
  else if lm = "Master" then {("path_diff", "Hard"), ("var", "Starved")}
  else if lm = "Glitched" then {("path_diff", "Hard")}
  else ∅

/-- `_get_seed_data` (core.py 66-96): the `params` set built from the
resolved arguments.  Returns `none` when a mode name misses its mapping
table (Python `KeyError`). -/
def buildParams (r : ResolvedSeedArgs) (variations : List String) :
    Option (Finset (String × String)) :=
  match PATHS_INHERITENCE r.logicMode, KEY_MODES.lookup r.keyMode,
      GOAL_MODES.lookup r.goalMode, ITEM_POOLS.lookup r.itemPool,
      variations.mapM (fun v => VARIATIONS.lookup v) with
  | some paths, some km, some gm, some ip, some vs =>
    some (({("seed", r.seedName)} : Finset (String × String))
      ∪ (paths.map (fun p => ("path", p))).toFinset
      ∪ {("key_mode", km), ("var", gm), ("pool_preset", ip), ("spawn", r.spawn)}
      ∪ (if r.goalMode = "World Tour" then {("relics", r.relicCount)} else ∅)
      ∪ (vs.map (fun v => ("var", v))).toFinset
      ∪ presetSpecifics r.logicMode)
  | _, _, _, _, _ => none

/-- `_get_seed_data` (core.py 39-99) up to the HTTP request: default
resolution followed by parameter construction. -/
def getSeedParams (seedName logicMode keyMode goalMode spawn itemPool
    relicCount : Option String) (variations : List String) (sysRand : String) :
    Option (Finset (String × String)) :=
  buildParams (resolveSeedArgs seedName logicMode keyMode goalMode spawn itemPool
    relicCount sysRand) variations

/-- The scalar (non-variation) settings dict of `_league_seed`
(league.py 482-483), looked up by name. -/
def leagueScalar (settings : List Setting) (now : Instant) (n : String) :
    Option String :=
  dictValue ((settingsForDate settings (getCurrentWeekStartDate now)).filter
    (fun s => !(strStartsWith s.name "variation"))) n

/-- The variation values of `_league_seed` (league.py 482), in row order. -/
def leagueVariations (settings : List Setting) (now : Instant) : List String :=
  ((settingsForDate settings (getCurrentWeekStartDate now)).filter
    (fun s => strStartsWith s.name "variation")).map (fun s => s.value)

/-- The arguments `_get_seed_data` ends up with on the league path: the
seed name is the stored value `or` the seeded-PRNG value (league.py 484),
every other scalar is the stored value `or` its default (core.py 58-64). -/
def leagueResolvedArgs (settings : List Setting) (derive : String → String)
    (sysRand : String) (now : Instant) : ResolvedSeedArgs :=
  resolveSeedArgs
    (some (pyOr (leagueScalar settings now "seed_name")
      (derive (getCurrentWeekStartDate now))))
    (leagueScalar settings now "logic_mode") (leagueScalar settings now "key_mode")
    (leagueScalar settings now "goal_mode") (leagueScalar settings now "spawn")
    (leagueScalar settings now "item_pool") (leagueScalar settings now "relic_count")
    sysRand

/-- `_league_seed` (league.py 471-485) composed with `_get_seed_data`: the
parameter set sent to the seed API for the current week.  Settings rows with
scalar names outside the `/league set` option set would raise `TypeError`
as unexpected keyword arguments in Python; the model assumes only the
storable names occur.  `derive` is the seeded PRNG
`str(random.Random(week_start_date).randint(1, 10**9))`. -/
def leagueSeedParams (settings : List Setting) (derive : String → String)
    (sysRand : String) (now : Instant) : Option (Finset (String × String)) :=
  buildParams (leagueResolvedArgs settings derive sysRand now)
    (leagueVariations settings now)

/-!
## Season number derivation
-/

/-- `int()` on a string: all-digit strings parse, anything else raises. -/
def parsePyInt (s : String) : Option ℕ :=
  if s.data.isEmpty then none
  else if s.data.all Char.isDigit then
    some (s.data.foldl (fun acc c => 10 * acc + (c.toNat - 48)) 0)
  else none

/-- `_get_active_season_number` (league.py 297-304):
`int(worksheets[0].title[1])` — the single character at index 1 of the
first worksheet title. -/
def getActiveSeasonNumber (titles : List String) : Option ℕ :=
  match titles with
  | [] => none
  | t :: _ =>
    match t.data[1]? with
    | none => none
    | some c => if c.isDigit then some (c.toNat - 48) else none

/-- `refresh_active_season_number` (sheet.py 49-55):
`int(worksheets[0].title.split()[0][1:])` — first whitespace token of the
first title, minus its first character. -/
def sheetActiveSeasonNumber (titles : List String) : Option ℕ :=
  match titles with
  | [] => none
  | t :: _ => parsePyInt (String.mk ((t.data.takeWhile (fun c => c ≠ ' ')).drop 1))

/-- Modelled from the spec: one title matched against `^S([0-9]+) .*$`,
returning the captured season number. -/
def parseSeasonTitle (t : String) : Option ℕ :=
  match t.data with
  | 'S' :: rest =>
    let ds := rest.takeWhile Char.isDigit
    let tl := rest.dropWhile Char.isDigit
    match ds, tl with
    | [], _ => none
    | _, ' ' :: _ => some (ds.foldl (fun acc c => 10 * acc + (c.toNat - 48)) 0)
    | _, _ => none
  | _ => none

/-- Modelled from the spec: the season number obtained by scanning all
worksheet titles for `^S([0-9]+) .*$` matches and taking the maximum. -/
def seasonByTitleScan (titles : List String) : Option ℕ :=
  (titles.filterMap parseSeasonTitle).max?

/-!
## The cog state and its transitions
-/

/-- `%H:%M:%S` rendering of the seconds-into-day. -/
def formatTime (secs : ℤ) : String :=
  ⟨digitsFixed 2 (secs.toNat / 3600) ++ ':' ::
    (digitsFixed 2 (secs.toNat / 60 % 60) ++ ':' :: digitsFixed 2 (secs.toNat % 60))⟩

/-- `strftime("%Y-%m-%d %H:%M:%S")` (league.py 446). -/
def formatDateTime (t : Instant) : String :=
  formatDate t.days ++ " " ++ formatTime t.secs

/-- The mutable state the `RandomizerLeague` cog closes over, together with
the external stores it reads and writes: the settings table, the active
season's ledger worksheet rows, the roster column, the worksheet titles, the
two cached values and the one-shot readiness event.  `α` is the type of the
seed API response artifact. -/
structure CogState (α : Type) where
  settings : List Setting
  ledger : List LedgerRow
  roster : List String
  titles : List String
  seedCache : Option α
  seasonCache : Option ℕ
  ready : Bool
  deriving DecidableEq, Repr

/-- `_refresh_cached_data` (league.py 265-274): recompute the seed artifact
(`_league_seed` followed by the API call `apiFn`), then the season number,
then set the ready event.  A raised exception propagates, leaving the
remaining fields untouched, so each failure point keeps the prior values. -/
def refreshCachedData {α : Type} (apiFn : Finset (String × String) → α)
    (derive : String → String) (sysRand : String) (st : CogState α)
    (now : Instant) : CogState α :=
  match leagueSeedParams st.settings derive sysRand now with
  | none => st
  | some p =>
    let st1 := { st with seedCache := some (apiFn p) }
    match getActiveSeasonNumber st1.titles with
    | none => st1
    | some n => { st1 with seasonCache := some n, ready := true }

/-- `_week_refresh` (league.py 225-248): on Fridays, refresh the cached
data, then — unless the week is extended — auto-DNF the closing week's
missing runners (one appended ledger row per runner in the computed missing
set, in whatever order the Python set iterates; `Finset.toList` models
that order). -/
def weekRefresh {α : Type} (apiFn : Finset (String × String) → α)
    (derive : String → String) (sysRand : String) (st : CogState α)
    (now : Instant) : CogState α :=
  if pyWeekday now.days ≠ 4 then st
  else
    let st1 := refreshCachedData apiFn derive sysRand st now
    if shouldExtendWeek st1.settings derive (now.subSecs 3600) then st1
    else
      let weekStartDate := getWeekStartDateStr (now.subSecs 3600)
      let submissions := getSubmissions st1.ledger weekStartDate
      if submissions.isEmpty then st1
      else
        let rows := (missingList st1.roster submissions).map
          (fun r => (⟨weekStartDate, "n/a", r, "DNF", "n/a"⟩ : LedgerRow))
        { st1 with ledger := st1.ledger ++ rows }

/-- Outcome of a `league_submit` call. -/
inductive SubmitOutcome where
  | success
  | alreadySubmitted
  deriving DecidableEq, Repr

/-- `league_submit` (league.py 432-455): reject when the caller already has
a submission row for the current week, otherwise append one ledger row.
`timer` is the already-transformed time string. -/
def leagueSubmit {α : Type} (st : CogState α) (user timer vod : String)
    (now : Instant) : SubmitOutcome × CogState α :=
  let weekStartDate := getCurrentWeekStartDate now
  if user ∈ getSubmissions st.ledger weekStartDate then
    (SubmitOutcome.alreadySubmitted, st)
  else
    (SubmitOutcome.success,
      { st with ledger := st.ledger ++
          [⟨weekStartDate, formatDateTime now, user, timer, vod⟩] })

/-- The `DateTransformer` (league.py 63-68): a parsed admin-supplied date
with the time replaced by 21:00:00. -/
def dateTransform (d : Instant) : Instant := ⟨d.days, 75600⟩

/-- `get_week_start_date(date) if date else get_current_week_start_date()`
(league.py 376, 400, 422): the week key targeted by a set/view/clear call. -/
def resolvedWeekKey (dateArg : Option Instant) (now : Instant) : String :=
  match dateArg with
  | some d => getWeekStartDateStr (dateTransform d)
  | none => getCurrentWeekStartDate now

/-- `league_set` (league.py 341-387), state effect: resolve the target week
key, upsert the submitted entries, and refresh the cached data iff the
target week is the current week. -/
def leagueSet {α : Type} (apiFn : Finset (String × String) → α)
    (derive : String → String) (sysRand : String) (st : CogState α)
    (entries : List (String × String)) (dateArg : Option Instant)
    (now : Instant) : CogState α :=
  let weekStartDate := resolvedWeekKey dateArg now
  let st1 := { st with settings := upsertSettings st.settings weekStartDate entries }
  if weekStartDate == getCurrentWeekStartDate now then
    refreshCachedData apiFn derive sysRand st1 now
  else st1

/-- `league_clear` (league.py 411-430), state effect:
`DELETE FROM league_settings WHERE date = ?`, then refresh the cached data
iff the target week is the current week. -/
def leagueClear {α : Type} (apiFn : Finset (String × String) → α)
    (derive : String → String) (sysRand : String) (st : CogState α)
    (dateArg : Option Instant) (now : Instant) : CogState α :=
  let weekStartDate := resolvedWeekKey dateArg now
  let st1 := { st with
    settings := st.settings.filter (fun s => !(s.date == weekStartDate)) }
  if weekStartDate == getCurrentWeekStartDate now then
    refreshCachedData apiFn derive sysRand st1 now
  else st1

/-- The number of ledger rows recorded for one `(week_key, runner)` pair. -/
def countSubmissionRows (ledger : List LedgerRow) (wk user : String) : ℕ :=
  (ledger.filter (fun r => r.week == wk && r.runner == user)).length

/-- Modelled from the spec (§4.3): `derive_seed_name(week_key)` — a stored
`seed_name` setting is used verbatim when present, the PRNG value
otherwise. -/
def deriveSeedNameSpec (settings : List Setting) (derive : String → String)
    (wk : String) : String :=
  match fetchSeedName settings wk with
  | some v => v
  | none => derive wk

/-- Modelled from the claim: `should_extend` as C4 states it — true iff the
stored next-week `seed_name` equals `derive_seed_name(current_week_key)`
(override-respecting), false otherwise. -/
def shouldExtendClaim (settings : List Setting) (derive : String → String)
    (date : Instant) : Bool :=
  match fetchSeedName settings (getWeekStartDateStr (date.addDays 7)) with
  | none => false
  | some v => v == deriveSeedNameSpec settings derive (getWeekStartDateStr date)

/-- The parameter set produced for an all-defaults settings store with seed
name `sn`: Standard logic paths with `cell_freq` 40, key mode Clues, goal
ForceTrees, Standard pool, Glades spawn, no relics, no variations. -/
def defaultSeedParams (sn : String) : Finset (String × String) :=
  {("seed", sn), ("path", "casual-core"), ("path", "casual-dboost"),
   ("path", "standard-core"), ("path", "standard-dboost"),
   ("path", "standard-lure"), ("path", "standard-abilities"),
   ("key_mode", "Clues"), ("var", "ForceTrees"), ("pool_preset", "Standard"),
   ("spawn", "Glades"), ("cell_freq", "40")}

/-!
## Operation traces

For the temporal claims we transliterate the statement order of the
relevant coroutines into abstract operation lists.
-/

/-- The externally visible operations of the league cog's coroutines. -/
inductive Op where
  | deferResponse
  | readSeedCache
  | sendResponse
  | waitReady
  | readSettingsDB
  | callSeedApi
  | writeSeedCache
  | readWorksheets
  | writeSeasonCache
  | setReady
  | checkExtend
  | readSubmissions
  | readRunners
  | appendRows
  deriving DecidableEq, Repr

/-- Operation trace of `_refresh_cached_data` (league.py 265-274) on its
success path: `_league_seed` reads the settings DB and calls the seed API,
the result is cached, the season number is read and cached, and only then
is the one-shot `ready` event set. -/
def refreshCachedDataTrace : List Op :=
  [Op.readSettingsDB, Op.callSeedApi, Op.writeSeedCache, Op.readWorksheets,
   Op.writeSeasonCache, Op.setReady]

/-- Operation trace of the `league_seed` handler (league.py 457-469): it
reads the cached seed data with no wait on the ready event. -/
def leagueSeedTrace : List Op :=
  [Op.deferResponse, Op.readSeedCache, Op.sendResponse]

/-- Operation trace of the `league_submit` handler (league.py 432-455): on
the non-duplicate path the success message reads `_seed_data['spoiler_url']`
from the cache; no wait on the ready event on either path. -/
def leagueSubmitTrace (alreadySubmitted : Bool) : List Op :=
  [Op.deferResponse, Op.readSubmissions] ++
    (if alreadySubmitted then [Op.sendResponse]
     else [Op.appendRows, Op.readSeedCache, Op.sendResponse])

/-- Operation trace of `_reminder` (league.py 167-207): it awaits the ready
event (after reading submissions, before reading the roster). -/
def reminderTrace (isThursday shouldExtend subsEmpty missingEmpty : Bool) : List Op :=
  if !isThursday then []
  else
    [Op.checkExtend] ++
      (if shouldExtend then []
       else [Op.readSubmissions] ++
         (if subsEmpty then []
          else [Op.waitReady, Op.readRunners] ++
            (if missingEmpty then [] else [Op.sendResponse])))

/-- Operation trace of `_week_refresh` (league.py 225-248): the cache
refresh runs first, then the extension check, then the auto-DNF block. -/
def weekRefreshTrace (isFriday shouldExtend subsEmpty : Bool) : List Op :=
  if !isFriday then []
  else
    refreshCachedDataTrace ++ [Op.checkExtend] ++
      (if shouldExtend then []
       else [Op.readSubmissions] ++
         (if subsEmpty then [] else [Op.readRunners, Op.appendRows]))

theorem daysInYear_ge (y : ℕ) : 365 ≤ daysInYear y := by
  unfold daysInYear; split <;> omega

theorem pyWeekday_getWeekStartDate (t : Instant) :
    pyWeekday (getWeekStartDate t) = 4 := by
  simp only [getWeekStartDate, Instant.subSecs, Instant.ofSecs, Instant.toSecs, pyWeekday]
  omega

theorem inWindow_getWeekStartDate (t : Instant) :
    inWindow (getWeekStartDate t) t := by
  simp only [getWeekStartDate, Instant.subSecs, Instant.ofSecs, Instant.toSecs, pyWeekday,
    inWindow]
  omega

theorem getWeekStartDate_eq_of_inWindow (t : Instant) (f : ℤ)
    (hf : pyWeekday f = 4) (hw : inWindow f t) : getWeekStartDate t = f := by
  simp only [pyWeekday] at hf
  simp only [inWindow, Instant.toSecs] at hw
  simp only [getWeekStartDate, Instant.subSecs, Instant.ofSecs, Instant.toSecs, pyWeekday]
  omega

theorem getWeekStartDate_addDays_seven (t : Instant) :
    getWeekStartDate (t.addDays 7) = getWeekStartDate t + 7 := by
  simp only [getWeekStartDate, Instant.addDays, Instant.subSecs, Instant.ofSecs, Instant.toSecs,
    pyWeekday]
  omega

/-- Day-level form of the week-clock property: two instants produce the
same week-start Friday iff they fall in the same league window. -/
theorem getWeekStartDate_eq_iff_sameWindow (t1 t2 : Instant) :
    getWeekStartDate t1 = getWeekStartDate t2 ↔ sameWindow t1 t2 := by
  constructor
  · intro h
    exact ⟨getWeekStartDate t1, pyWeekday_getWeekStartDate t1,
      inWindow_getWeekStartDate t1, h ▸ inWindow_getWeekStartDate t2⟩
  · rintro ⟨f, hf, hw1, hw2⟩
    rw [getWeekStartDate_eq_of_inWindow t1 f hf hw1,
        getWeekStartDate_eq_of_inWindow t2 f hf hw2]

set_option maxRecDepth 40000 in
theorem formatDate_epoch : formatDate 0 = "1970-01-01" := by decide

set_option maxRecDepth 40000 in
theorem formatDate_leap_day : formatDate 11016 = "2000-02-29" := by decide

set_option maxRecDepth 40000 in
theorem formatDate_20240503 : formatDate 19846 = "2024-05-03" := by decide

theorem daysInYear_le (y : ℕ) : daysInYear y ≤ 366 := by
  unfold daysInYear; split <;> omega

theorem yearAndDoyGo_year_ge (fuel : ℕ) : ∀ y n, y ≤ (yearAndDoyGo fuel y n).1 := by
  induction fuel with
  | zero => intro y n; exact le_refl y
  | succ f ih =>
    intro y n
    simp only [yearAndDoyGo]
    split
    · exact le_refl y
    · exact le_trans (Nat.le_succ y) (ih (y + 1) (n - daysInYear y))

theorem yearAndDoyGo_year_le (fuel : ℕ) :
    ∀ y n, (yearAndDoyGo fuel y n).1 ≤ y + n / 365 := by
  induction fuel with
  | zero => intro y n; simp [yearAndDoyGo]
  | succ f ih =>
    intro y n
    simp only [yearAndDoyGo]
    split
    · simp
    · have h1 := ih (y + 1) (n - daysInYear y)
      have h2 := daysInYear_ge y
      omega

theorem yearAndDoyGo_doy_lt (fuel : ℕ) :
    ∀ y n, n < fuel →
      (yearAndDoyGo fuel y n).2 < daysInYear (yearAndDoyGo fuel y n).1 := by
  induction fuel with
  | zero => intro y n h; omega
  | succ f ih =>
    intro y n h
    simp only [yearAndDoyGo]
    split
    · assumption
    · have h2 := daysInYear_ge y
      exact ih (y + 1) (n - daysInYear y) (by omega)

theorem yearAndDoyGo_fuel_irrel :
    ∀ f1 f2 y n, n < f1 → n < f2 → yearAndDoyGo f1 y n = yearAndDoyGo f2 y n := by
  intro f1
  induction f1 with
  | zero => intro f2 y n h1 _; omega
  | succ f ih =>
    intro f2 y n h1 h2
    match f2 with
    | 0 => omega
    | g + 1 =>
      simp only [yearAndDoyGo]
      split
      · rfl
      · have hd := daysInYear_ge y
        exact ih g (y + 1) (n - daysInYear y) (by omega) (by omega)

theorem yearAndDoyGo_inj (fuel : ℕ) :
    ∀ y n1 n2, n1 < fuel → n2 < fuel →
      yearAndDoyGo fuel y n1 = yearAndDoyGo fuel y n2 → n1 = n2 := by
  induction fuel with
  | zero => intro y n1 n2 h1 h2 _; omega
  | succ f ih =>
    intro y n1 n2 h1 h2 h
    have hd := daysInYear_ge y
    simp only [yearAndDoyGo] at h
    split_ifs at h with ha hb hb
    · exact congrArg Prod.snd h
    · have := yearAndDoyGo_year_ge f (y + 1) (n2 - daysInYear y)
      have := congrArg Prod.fst h
      simp only at this
      omega
    · have := yearAndDoyGo_year_ge f (y + 1) (n1 - daysInYear y)
      have := congrArg Prod.fst h
      simp only at this
      omega
    · have := ih (y + 1) (n1 - daysInYear y) (n2 - daysInYear y) (by omega) (by omega) h
      omega

theorem monthAndDay_month_ge (lens : List ℕ) :
    ∀ m n, m ≤ (monthAndDay lens m n).1 := by
  induction lens with
  | nil => intro m n; exact le_refl m
  | cons len rest ih =>
    intro m n
    simp only [monthAndDay]
    split
    · exact le_refl m
    · exact le_trans (Nat.le_succ m) (ih (m + 1) (n - len))

theorem monthAndDay_inj (lens : List ℕ) :
    ∀ m n1 n2, monthAndDay lens m n1 = monthAndDay lens m n2 → n1 = n2 := by
  induction lens with
  | nil =>
    intro m n1 n2 h
    have := congrArg Prod.snd h
    simpa [monthAndDay] using this
  | cons len rest ih =>
    intro m n1 n2 h
    simp only [monthAndDay] at h
    split_ifs at h with ha hb hb
    · have := congrArg Prod.snd h
      simp only at this
      omega
    · have := monthAndDay_month_ge rest (m + 1) (n2 - len)
      have := congrArg Prod.fst h
      simp only at this
      omega
    · have := monthAndDay_month_ge rest (m + 1) (n1 - len)
      have := congrArg Prod.fst h
      simp only at this
      omega
    · have := ih (m + 1) (n1 - len) (n2 - len) h
      omega

set_option maxRecDepth 40000 in
/-- For any in-range day-of-year, the resulting month is 1..12 and the
day-of-month is 1..31: a finite check over the two leap shapes. -/
theorem monthAndDay_bounds :
    ∀ (b : Bool) (doy : Fin 366), (doy.val < if b then 366 else 365) →
      1 ≤ (monthAndDay (monthLengths b) 1 doy.val).1 ∧
      (monthAndDay (monthLengths b) 1 doy.val).1 ≤ 12 ∧
      1 ≤ (monthAndDay (monthLengths b) 1 doy.val).2 ∧
      (monthAndDay (monthLengths b) 1 doy.val).2 ≤ 31 := by decide

theorem civilFromDays_bounds (z : ℤ) (hlo : -135140 ≤ z) (hhi : z ≤ 2920000) :
    1600 ≤ (civilFromDays z).1 ∧ (civilFromDays z).1 ≤ 9999 ∧
    1 ≤ (civilFromDays z).2.1 ∧ (civilFromDays z).2.1 ≤ 12 ∧
    1 ≤ (civilFromDays z).2.2 ∧ (civilFromDays z).2.2 ≤ 31 := by
  have hyg := yearAndDoyGo_year_ge ((z + 135140).toNat + 1) 1600 (z + 135140).toNat
  have hyl := yearAndDoyGo_year_le ((z + 135140).toNat + 1) 1600 (z + 135140).toNat
  have hdl := yearAndDoyGo_doy_lt ((z + 135140).toNat + 1) 1600 (z + 135140).toNat
    (Nat.lt_succ_self _)
  set p := yearAndDoyGo ((z + 135140).toNat + 1) 1600 (z + 135140).toNat with hp
  have hdoy366 : p.2 < 366 := lt_of_lt_of_le hdl (daysInYear_le p.1)
  have hmb := monthAndDay_bounds (isLeap p.1) ⟨p.2, hdoy366⟩ (by
    simpa [daysInYear] using hdl)
  simp only [civilFromDays, yearAndDoy, ← hp]
  refine ⟨hyg, ?_, hmb.1, hmb.2.1, hmb.2.2.1, hmb.2.2.2⟩
  have : (z + 135140).toNat ≤ 3055140 := by omega
  have : (z + 135140).toNat / 365 ≤ 8370 := by omega
  omega

theorem civilFromDays_inj (z1 z2 : ℤ) (h1 : -135140 ≤ z1) (h2 : -135140 ≤ z2)
    (h : civilFromDays z1 = civilFromDays z2) : z1 = z2 := by
  simp only [civilFromDays, yearAndDoy] at h
  set p1 := yearAndDoyGo ((z1 + 135140).toNat + 1) 1600 (z1 + 135140).toNat with hp1
  set p2 := yearAndDoyGo ((z2 + 135140).toNat + 1) 1600 (z2 + 135140).toNat with hp2
  have hy : p1.1 = p2.1 := congrArg (fun c => c.1) h
  have hm : (monthAndDay (monthLengths (isLeap p1.1)) 1 p1.2)
      = (monthAndDay (monthLengths (isLeap p2.1)) 1 p2.2) := by
    have hfst := congrArg (fun c => c.2.1) h
    have hsnd := congrArg (fun c => c.2.2) h
    simp only at hfst hsnd
    exact Prod.ext hfst hsnd
  rw [← hy] at hm
  have hdoy : p1.2 = p2.2 := monthAndDay_inj (monthLengths (isLeap p1.1)) 1 _ _ hm
  have hpair : p1 = p2 := Prod.ext hy hdoy
  -- both fuels exceed both day counts, so the walks agree and are injective
  have hn : (z1 + 135140).toNat = (z2 + 135140).toNat := by
    have e1 : yearAndDoyGo ((z1 + 135140).toNat + (z2 + 135140).toNat + 1) 1600
        (z1 + 135140).toNat = p1 := by
      rw [hp1]
      exact yearAndDoyGo_fuel_irrel _ _ _ _ (by omega) (by omega)
    have e2 : yearAndDoyGo ((z1 + 135140).toNat + (z2 + 135140).toNat + 1) 1600
        (z2 + 135140).toNat = p2 := by
      rw [hp2]
      exact yearAndDoyGo_fuel_irrel _ _ _ _ (by omega) (by omega)
    exact yearAndDoyGo_inj ((z1 + 135140).toNat + (z2 + 135140).toNat + 1) 1600 _ _
      (by omega) (by omega) (by rw [e1, e2, hpair])
  omega

theorem digitChar_inj (a b : ℕ) (ha : a < 10) (hb : b < 10)
    (h : digitChar a = digitChar b) : a = b := by
  interval_cases a <;> interval_cases b <;> simp_all <;> revert h <;> decide

theorem digitsFixed_length (w : ℕ) : ∀ n, (digitsFixed w n).length = w := by
  induction w with
  | zero => intro n; rfl
  | succ v ih =>
    intro n
    simp only [digitsFixed, List.length_append, List.length_cons, List.length_nil, ih]

theorem digitsFixed_inj (w : ℕ) :
    ∀ n1 n2, n1 < 10 ^ w → n2 < 10 ^ w →
      digitsFixed w n1 = digitsFixed w n2 → n1 = n2 := by
  induction w with
  | zero => intro n1 n2 h1 h2 _; omega
  | succ v ih =>
    intro n1 n2 h1 h2 h
    simp only [digitsFixed] at h
    have hlen : (digitsFixed v (n1 / 10)).length = (digitsFixed v (n2 / 10)).length := by
      rw [digitsFixed_length, digitsFixed_length]
    obtain ⟨hpre, hsuf⟩ := List.append_inj h hlen
    have hdig : n1 % 10 = n2 % 10 := by
      refine digitChar_inj _ _ (Nat.mod_lt _ (by omega)) (Nat.mod_lt _ (by omega)) ?_
      exact List.head_eq_of_cons_eq hsuf
    have hpow : 10 ^ (v + 1) = 10 ^ v * 10 := pow_succ 10 v
    have hq := ih (n1 / 10) (n2 / 10)
      ((Nat.div_lt_iff_lt_mul (by omega)).mpr (by omega))
      ((Nat.div_lt_iff_lt_mul (by omega)).mpr (by omega)) hpre
    omega

theorem formatDate_inj (z1 z2 : ℤ)
    (h1 : -135140 ≤ z1 ∧ z1 ≤ 2920000) (h2 : -135140 ≤ z2 ∧ z2 ≤ 2920000)
    (h : formatDate z1 = formatDate z2) : z1 = z2 := by
  obtain ⟨hy1l, hy1h, hm1l, hm1h, hd1l, hd1h⟩ := civilFromDays_bounds z1 h1.1 h1.2
  obtain ⟨hy2l, hy2h, hm2l, hm2h, hd2l, hd2h⟩ := civilFromDays_bounds z2 h2.1 h2.2
  have hl : digitsFixed 4 (civilFromDays z1).1 ++
        '-' :: (digitsFixed 2 (civilFromDays z1).2.1 ++
          '-' :: digitsFixed 2 (civilFromDays z1).2.2)
      = digitsFixed 4 (civilFromDays z2).1 ++
        '-' :: (digitsFixed 2 (civilFromDays z2).2.1 ++
          '-' :: digitsFixed 2 (civilFromDays z2).2.2) := by
    have := congrArg String.data h
    simpa only [formatDate] using this
  have hlen4 : (digitsFixed 4 (civilFromDays z1).1).length
      = (digitsFixed 4 (civilFromDays z2).1).length := by
    rw [digitsFixed_length, digitsFixed_length]
  obtain ⟨hyl, htl⟩ := List.append_inj hl hlen4
  have htl2 := List.tail_eq_of_cons_eq htl
  have hlen2 : (digitsFixed 2 (civilFromDays z1).2.1).length
      = (digitsFixed 2 (civilFromDays z2).2.1).length := by
    rw [digitsFixed_length, digitsFixed_length]
  obtain ⟨hml, hdl2⟩ := List.append_inj htl2 hlen2
  have hdl3 := List.tail_eq_of_cons_eq hdl2
  have hy : (civilFromDays z1).1 = (civilFromDays z2).1 :=
    digitsFixed_inj 4 _ _ (by norm_num; omega) (by norm_num; omega) hyl
  have hm : (civilFromDays z1).2.1 = (civilFromDays z2).2.1 :=
    digitsFixed_inj 2 _ _ (by norm_num; omega) (by norm_num; omega) hml
  have hd : (civilFromDays z1).2.2 = (civilFromDays z2).2.2 :=
    digitsFixed_inj 2 _ _ (by norm_num; omega) (by norm_num; omega) hdl3
  exact civilFromDays_inj z1 z2 h1.1 h2.1 (Prod.ext hy (Prod.ext hm hd))

theorem getWeekStartDate_range (t : Instant) (h : t.valid) :
    -135140 ≤ getWeekStartDate t ∧ getWeekStartDate t ≤ 2920000 := by
  obtain ⟨hs0, hs1, hd0, hd1⟩ := h
  simp only [getWeekStartDate, Instant.subSecs, Instant.ofSecs, Instant.toSecs, pyWeekday]
  omega

theorem getWeekStartDateStr_eq_iff (t1 t2 : Instant) (h1 : t1.valid) (h2 : t2.valid) :
    getWeekStartDateStr t1 = getWeekStartDateStr t2 ↔
      getWeekStartDate t1 = getWeekStartDate t2 := by
  constructor
  · intro h
    exact formatDate_inj _ _ (getWeekStartDate_range t1 h1) (getWeekStartDate_range t2 h2) h
  · intro h
    simp only [getWeekStartDateStr, h]

/-- C2: for every pair of (valid) timestamps `t1`, `t2`, the computed week
keys `current_week_key(t1)` and `current_week_key(t2)` are equal iff the two
instants fall in the same Friday-21:00-Eastern to next-Friday-21:00-Eastern
window (the instants being Eastern wall-clock times, as produced by the
timezone-aware `datetime.now(EASTERN_TZ)`), and the key is the `YYYY-MM-DD`
rendering of the day on which that window's starting Friday falls. -/
theorem c2_week_key_same_iff_same_window (t1 t2 : Instant)
    (h1 : t1.valid) (h2 : t2.valid) :
    (getCurrentWeekStartDate t1 = getCurrentWeekStartDate t2 ↔ sameWindow t1 t2) ∧
    (∃ f : ℤ, pyWeekday f = 4 ∧ inWindow f t1 ∧ getCurrentWeekStartDate t1 = formatDate f) := by
  constructor
  · rw [getCurrentWeekStartDate, getCurrentWeekStartDate,
      getWeekStartDateStr_eq_iff t1 t2 h1 h2]
    exact getWeekStartDate_eq_iff_sameWindow t1 t2
  · exact ⟨getWeekStartDate t1, pyWeekday_getWeekStartDate t1,
      inWindow_getWeekStartDate t1, rfl⟩

/-- Witness for C2 at two concrete instants: Friday 2024-05-03 22:00 Eastern
and Thursday 2024-05-09 01:00 Eastern, which lie in the same league week. -/
theorem c2_week_key_same_iff_same_window_witness :
    Instant.valid ⟨19846, 79200⟩ ∧ Instant.valid ⟨19852, 3600⟩ ∧
    ((getCurrentWeekStartDate ⟨19846, 79200⟩ = getCurrentWeekStartDate ⟨19852, 3600⟩ ↔
        sameWindow ⟨19846, 79200⟩ ⟨19852, 3600⟩) ∧
      (∃ f : ℤ, pyWeekday f = 4 ∧ inWindow f ⟨19846, 79200⟩ ∧
        getCurrentWeekStartDate ⟨19846, 79200⟩ = formatDate f)) :=
  ⟨by decide, by decide,
    c2_week_key_same_iff_same_window ⟨19846, 79200⟩ ⟨19852, 3600⟩ (by decide) (by decide)⟩


/-!
## Claim C1: the missing-runner set
-/

theorem missingRunners_eq_sdiff {runners subs : List String}
    (h : subs.toFinset ⊆ runners.toFinset) :
    missingRunners runners subs = runners.toFinset \ subs.toFinset := by
  unfold missingRunners
  exact symmDiff_of_ge h

/-- C1 (amended): the missing-runner computation is the symmetric difference
of roster and week submissions; it equals the claimed set difference
`roster - submissions` exactly when the week's submitted names are a subset
of the roster (the spec's normal-operation guarantee) — a stray ledger name
outside the roster IS counted as missing (see the counterexample). -/
theorem c1_missing_equals_roster_minus_submissions (roster : List String)
    (ledger : List LedgerRow) (wk : String)
    (h : (getSubmissions ledger wk).toFinset ⊆ roster.toFinset) :
    missingRunners roster (getSubmissions ledger wk)
      = roster.toFinset \ (getSubmissions ledger wk).toFinset :=
  missingRunners_eq_sdiff h

/-- C1 counterexample: roster `["A"]`, one ledger row for week `2024-05-03`
naming the stray runner `B`: the code counts `B` as missing, and the missing
set is not the set difference `roster - submissions`. -/
theorem c1_stray_name_counted_missing :
    "B" ∈ missingRunners ["A"]
        (getSubmissions [⟨"2024-05-03", "ts", "B", "DNF", "n/a"⟩] "2024-05-03") ∧
    missingRunners ["A"]
        (getSubmissions [⟨"2024-05-03", "ts", "B", "DNF", "n/a"⟩] "2024-05-03")
      ≠ (["A"] : List String).toFinset \
          (getSubmissions [⟨"2024-05-03", "ts", "B", "DNF", "n/a"⟩] "2024-05-03").toFinset := by
  decide

/-- Witness for C1 at the spec's example: roster `{A, B, C}`, submissions
`{A, B}`, missing `{C}`. -/
theorem c1_missing_equals_roster_minus_submissions_witness :
    ((getSubmissions [⟨"2024-05-03", "t1", "A", "10:00", "v"⟩,
        ⟨"2024-05-03", "t2", "B", "11:00", "v"⟩] "2024-05-03").toFinset
      ⊆ (["A", "B", "C"] : List String).toFinset) ∧
    missingRunners ["A", "B", "C"] (getSubmissions [⟨"2024-05-03", "t1", "A", "10:00", "v"⟩,
        ⟨"2024-05-03", "t2", "B", "11:00", "v"⟩] "2024-05-03")
      = (["A", "B", "C"] : List String).toFinset \
        (getSubmissions [⟨"2024-05-03", "t1", "A", "10:00", "v"⟩,
          ⟨"2024-05-03", "t2", "B", "11:00", "v"⟩] "2024-05-03").toFinset ∧
    missingRunners ["A", "B", "C"] (getSubmissions [⟨"2024-05-03", "t1", "A", "10:00", "v"⟩,
        ⟨"2024-05-03", "t2", "B", "11:00", "v"⟩] "2024-05-03") = {"C"} :=
  ⟨by decide,
   c1_missing_equals_roster_minus_submissions ["A", "B", "C"] _ "2024-05-03" (by decide),
   by decide⟩

/-!
## Claim C9: season number derivation
-/

/-- C9 counterexample: with worksheet titles `["S9 Names", "S10 Raw Data"]`
both season derivations read season 9 off the first tab, while the claimed
scan of all titles matching `^S([0-9]+) .*$` for the maximum yields 10. -/
theorem c9_first_tab_beats_max_scan :
    getActiveSeasonNumber ["S9 Names", "S10 Raw Data"] = some 9 ∧
    sheetActiveSeasonNumber ["S9 Names", "S10 Raw Data"] = some 9 ∧
    seasonByTitleScan ["S9 Names", "S10 Raw Data"] = some 10 ∧
    getActiveSeasonNumber ["S9 Names", "S10 Raw Data"]
      ≠ seasonByTitleScan ["S9 Names", "S10 Raw Data"] := by
  refine ⟨by decide, by decide, by decide, by decide⟩

/-- C9 (amended): the active season number is derived, not stored, but from
the first worksheet title alone — `int(title[1])` in league.py,
`int(title.split()[0][1:])` in sheet.py — so it is the first tab's (single
digit) season number and is independent of every other worksheet title. -/
theorem c9_season_from_first_tab (c : Char) (hc : c.isDigit) (tail : List Char)
    (rest1 rest2 : List String) :
    getActiveSeasonNumber (String.mk ('S' :: c :: ' ' :: tail) :: rest1)
      = some (c.toNat - 48) ∧
    sheetActiveSeasonNumber (String.mk ('S' :: c :: ' ' :: tail) :: rest1)
      = some (c.toNat - 48) ∧
    getActiveSeasonNumber (String.mk ('S' :: c :: ' ' :: tail) :: rest1)
      = getActiveSeasonNumber (String.mk ('S' :: c :: ' ' :: tail) :: rest2) ∧
    sheetActiveSeasonNumber (String.mk ('S' :: c :: ' ' :: tail) :: rest1)
      = sheetActiveSeasonNumber (String.mk ('S' :: c :: ' ' :: tail) :: rest2) := by
  have hcs : ¬ (c = ' ') := by
    intro h
    rw [h] at hc
    exact absurd hc (by decide)
  refine ⟨?_, ?_, rfl, rfl⟩
  · simp [getActiveSeasonNumber, hc]
  · simp [sheetActiveSeasonNumber, parsePyInt, List.takeWhile, hcs, hc]

/-- Witness for C9 (amended) at the real worksheet title `"S2 Names"`. -/
theorem c9_season_from_first_tab_witness :
    Char.isDigit '2' = true ∧
    getActiveSeasonNumber (String.mk ('S' :: '2' :: ' ' :: "Names".data) :: ["S2 Raw Data"])
      = some ('2'.toNat - 48) ∧
    sheetActiveSeasonNumber (String.mk ('S' :: '2' :: ' ' :: "Names".data) :: ["S2 Raw Data"])
      = some ('2'.toNat - 48) :=
  ⟨by decide,
   (c9_season_from_first_tab '2' (by decide) "Names".data ["S2 Raw Data"] []).1,
   (c9_season_from_first_tab '2' (by decide) "Names".data ["S2 Raw Data"] []).2.1⟩

/-!
## Claim C3: the readiness gate
-/

/-- C3 counterexample: the seed handler and the (non-duplicate) submit
handler both read the cached seed artifact and neither trace contains a wait
on the readiness gate. -/
theorem c3_seed_submit_read_cache_without_gate :
    Op.readSeedCache ∈ leagueSeedTrace ∧ Op.waitReady ∉ leagueSeedTrace ∧
    Op.readSeedCache ∈ leagueSubmitTrace false ∧
    Op.waitReady ∉ leagueSubmitTrace false := by decide

/-- C3 (amended): the one-shot gate is set only after the cache is
populated within a refresh, and the reminder task does wait on it before
reading the roster; but the seed and submit request handlers read the cached
artifact without waiting on the gate on any path (they rely on the startup
`cog_load` refresh having populated the cache). -/
theorem c3_gate_set_after_population_not_awaited_by_handlers :
    (List.indexOf Op.writeSeedCache refreshCachedDataTrace
      < List.indexOf Op.setReady refreshCachedDataTrace) ∧
    (∀ b : Bool, Op.waitReady ∉ leagueSeedTrace ∧ Op.waitReady ∉ leagueSubmitTrace b) ∧
    (∀ me : Bool, Op.waitReady ∈ reminderTrace true false false me) := by decide

/-!
## Claim C5: ordering inside one week-refresh firing
-/

/-- C5 counterexample: in the Friday firing with no extension and non-empty
submissions, the auto-DNF append does occur, but not before the refresh's
settings read: the claim's ordering fails on the trace. -/
theorem c5_auto_dnf_not_before_refresh :
    Op.appendRows ∈ weekRefreshTrace true false false ∧
    Op.readSettingsDB ∈ weekRefreshTrace true false false ∧
    ¬ (List.indexOf Op.appendRows (weekRefreshTrace true false false)
        < List.indexOf Op.readSettingsDB (weekRefreshTrace true false false)) := by decide

/-- C5 (amended): the order inside one firing is the reverse of the claim:
the cache refresh — including its read of the new week's settings and the
seed computation — runs first and unconditionally, and every auto-DNF
append comes after it. -/
theorem c5_refresh_precedes_auto_dnf (e s : Bool)
    (h : Op.appendRows ∈ weekRefreshTrace true e s) :
    List.indexOf Op.readSettingsDB (weekRefreshTrace true e s)
      < List.indexOf Op.appendRows (weekRefreshTrace true e s) := by
  cases e <;> cases s <;> revert h <;> decide

/-- Witness for C5 (amended) on the active Friday firing. -/
theorem c5_refresh_precedes_auto_dnf_witness :
    Op.appendRows ∈ weekRefreshTrace true false false ∧
    List.indexOf Op.readSettingsDB (weekRefreshTrace true false false)
      < List.indexOf Op.appendRows (weekRefreshTrace true false false) :=
  ⟨by decide, c5_refresh_precedes_auto_dnf false false (by decide)⟩


/-!
## Claim C4: the week-extension test
-/

set_option maxRecDepth 400000 in
/-- C4 counterexample: the settings store holds `seed_name = "x"` for both
the current week `2024-05-03` and the next week `2024-05-10`, and the PRNG
value of the current key is `"1"`.  Under the claim (via the
override-respecting `derive_seed_name`) `should_extend` would be true; the
code compares against the PRNG value only and returns false. -/
theorem c4_override_ignored_counterexample :
    shouldExtendClaim [⟨"2024-05-03", "seed_name", "x"⟩, ⟨"2024-05-10", "seed_name", "x"⟩]
        (fun _ => "1") ⟨19846, 79200⟩ = true ∧
    shouldExtendWeek [⟨"2024-05-03", "seed_name", "x"⟩, ⟨"2024-05-10", "seed_name", "x"⟩]
        (fun _ => "1") ⟨19846, 79200⟩ = false := by
  refine ⟨by decide, by decide⟩

/-- C4 (amended): `should_extend_week` is true iff a `seed_name` row is
stored under the next week's key (the current key's Friday plus seven days)
whose value equals the seeded-PRNG name of the current week key; a stored
current-week `seed_name` override plays no role in the comparison, and a
missing next-week row gives false. -/
theorem c4_extend_iff_next_week_stores_prng_name (settings : List Setting)
    (derive : String → String) (date : Instant) :
    shouldExtendWeek settings derive date = true ↔
      fetchSeedName settings (formatDate (getWeekStartDate date + 7))
        = some (derive (formatDate (getWeekStartDate date))) := by
  simp only [shouldExtendWeek, getWeekStartDateStr, getWeekStartDate_addDays_seven]
  cases h : fetchSeedName settings (formatDate (getWeekStartDate date + 7)) with
  | none => simp
  | some v => simp [beq_iff_eq]

/-!
## Claim C7: duplicate submissions
-/

theorem countSubmissionRows_eq_zero {ledger : List LedgerRow} {wk u : String}
    (h : u ∉ getSubmissions ledger wk) : countSubmissionRows ledger wk u = 0 := by
  unfold countSubmissionRows
  rw [List.length_eq_zero, List.filter_eq_nil_iff]
  intro r hr hpred
  simp only [Bool.and_eq_true, beq_iff_eq] at hpred
  apply h
  unfold getSubmissions
  simp only [List.mem_map, List.mem_filter, beq_iff_eq]
  exact ⟨r, ⟨hr, hpred.1⟩, hpred.2⟩

/-- C7: once a first submission by `user` is accepted for the current week,
a second submit call by the same user in the same week is rejected with the
already-submitted outcome and leaves the state (in particular the ledger)
unchanged, and the ledger ends with exactly one row for that
`(week_key, runner)` pair. -/
theorem c7_second_submission_rejected {α : Type} (st : CogState α)
    (user t1 v1 t2 v2 : String) (now now2 : Instant)
    (hsame : getCurrentWeekStartDate now2 = getCurrentWeekStartDate now)
    (hfirst : (leagueSubmit st user t1 v1 now).1 = SubmitOutcome.success) :
    (leagueSubmit (leagueSubmit st user t1 v1 now).2 user t2 v2 now2).1
        = SubmitOutcome.alreadySubmitted ∧
    (leagueSubmit (leagueSubmit st user t1 v1 now).2 user t2 v2 now2).2
        = (leagueSubmit st user t1 v1 now).2 ∧
    countSubmissionRows st.ledger (getCurrentWeekStartDate now) user = 0 ∧
    countSubmissionRows
        (leagueSubmit (leagueSubmit st user t1 v1 now).2 user t2 v2 now2).2.ledger
        (getCurrentWeekStartDate now) user = 1 := by
  have hnotmem : user ∉ getSubmissions st.ledger (getCurrentWeekStartDate now) := by
    intro hmem
    unfold leagueSubmit at hfirst
    rw [if_pos hmem] at hfirst
    exact SubmitOutcome.noConfusion hfirst
  have hst1 : (leagueSubmit st user t1 v1 now).2
      = { st with ledger := st.ledger ++
          [⟨getCurrentWeekStartDate now, formatDateTime now, user, t1, v1⟩] } := by
    unfold leagueSubmit
    rw [if_neg hnotmem]
  have hmem2 : user ∈ getSubmissions (leagueSubmit st user t1 v1 now).2.ledger
      (getCurrentWeekStartDate now2) := by
    rw [hst1, hsame]
    unfold getSubmissions
    simp [List.filter_append]
  have hsecond : leagueSubmit (leagueSubmit st user t1 v1 now).2 user t2 v2 now2
      = (SubmitOutcome.alreadySubmitted, (leagueSubmit st user t1 v1 now).2) := by
    unfold leagueSubmit
    unfold leagueSubmit at hmem2 hst1
    rw [if_pos hmem2]
  refine ⟨by rw [hsecond], by rw [hsecond], countSubmissionRows_eq_zero hnotmem, ?_⟩
  rw [hsecond]
  rw [hst1]
  unfold countSubmissionRows
  rw [List.filter_append, List.length_append]
  have h0 : countSubmissionRows st.ledger (getCurrentWeekStartDate now) user = 0 :=
    countSubmissionRows_eq_zero hnotmem
  unfold countSubmissionRows at h0
  rw [h0]
  simp

set_option maxRecDepth 400000 in
/-- Witness for C7: Alice submits twice for week `2024-05-03`; the second
call is rejected, the state is unchanged, and there is exactly one row. -/
theorem c7_second_submission_rejected_witness :
    (getCurrentWeekStartDate ⟨19847, 3600⟩ = getCurrentWeekStartDate ⟨19846, 79200⟩) ∧
    ((leagueSubmit (⟨[], [], ["Alice", "Bob"], ["S1 Names"], none, none, false⟩ : CogState ℕ)
        "Alice" "01:00:00.000" "vod" ⟨19846, 79200⟩).1 = SubmitOutcome.success) ∧
    ((leagueSubmit (leagueSubmit (⟨[], [], ["Alice", "Bob"], ["S1 Names"], none, none, false⟩ :
          CogState ℕ) "Alice" "01:00:00.000" "vod" ⟨19846, 79200⟩).2
        "Alice" "DNF" "vod2" ⟨19847, 3600⟩).1 = SubmitOutcome.alreadySubmitted ∧
      (leagueSubmit (leagueSubmit (⟨[], [], ["Alice", "Bob"], ["S1 Names"], none, none, false⟩ :
          CogState ℕ) "Alice" "01:00:00.000" "vod" ⟨19846, 79200⟩).2
        "Alice" "DNF" "vod2" ⟨19847, 3600⟩).2
        = (leagueSubmit (⟨[], [], ["Alice", "Bob"], ["S1 Names"], none, none, false⟩ :
          CogState ℕ) "Alice" "01:00:00.000" "vod" ⟨19846, 79200⟩).2 ∧
      countSubmissionRows ([] : List LedgerRow)
        (getCurrentWeekStartDate ⟨19846, 79200⟩) "Alice" = 0 ∧
      countSubmissionRows
        (leagueSubmit (leagueSubmit (⟨[], [], ["Alice", "Bob"], ["S1 Names"], none, none, false⟩ :
            CogState ℕ) "Alice" "01:00:00.000" "vod" ⟨19846, 79200⟩).2
          "Alice" "DNF" "vod2" ⟨19847, 3600⟩).2.ledger
        (getCurrentWeekStartDate ⟨19846, 79200⟩) "Alice" = 1) :=
  ⟨by decide, by decide,
   c7_second_submission_rejected (⟨[], [], ["Alice", "Bob"], ["S1 Names"], none, none, false⟩ :
      CogState ℕ) "Alice" "01:00:00.000" "vod" "DNF" "vod2" ⟨19846, 79200⟩ ⟨19847, 3600⟩
     (by decide) (by decide)⟩


/-!
## Claim C10: frame effect of set/clear on the cache
-/

set_option maxRecDepth 100000 in
/-- C10: a `/league set` or `/league clear` whose resolved week key differs
from the current week's key leaves both cached values untouched; one whose
resolved key equals the current week's key is exactly an update of the
settings store followed by an immediate `_refresh_cached_data`. -/
theorem c10_set_clear_refresh_iff_current_week {α : Type}
    (apiFn : Finset (String × String) → α) (derive : String → String)
    (sysRand : String) (st : CogState α) (entries : List (String × String))
    (dateArg : Option Instant) (now : Instant) :
    (resolvedWeekKey dateArg now ≠ getCurrentWeekStartDate now →
      ((leagueSet apiFn derive sysRand st entries dateArg now).seedCache = st.seedCache ∧
       (leagueSet apiFn derive sysRand st entries dateArg now).seasonCache = st.seasonCache ∧
       (leagueClear apiFn derive sysRand st dateArg now).seedCache = st.seedCache ∧
       (leagueClear apiFn derive sysRand st dateArg now).seasonCache = st.seasonCache)) ∧
    (resolvedWeekKey dateArg now = getCurrentWeekStartDate now →
      (leagueSet apiFn derive sysRand st entries dateArg now
          = refreshCachedData apiFn derive sysRand
              { st with
                settings :=
                  upsertSettings st.settings (resolvedWeekKey dateArg now) entries } now ∧
       leagueClear apiFn derive sysRand st dateArg now
          = refreshCachedData apiFn derive sysRand
              { st with
                settings :=
                  st.settings.filter
                    (fun s => !(s.date == resolvedWeekKey dateArg now)) } now)) := by
  constructor
  · intro h
    have hcond : (resolvedWeekKey dateArg now == getCurrentWeekStartDate now) = false :=
      beq_eq_false_iff_ne.mpr h
    unfold leagueSet leagueClear
    simp only []
    rw [hcond]
    rw [if_neg Bool.false_ne_true, if_neg Bool.false_ne_true]
    exact ⟨rfl, rfl, rfl, rfl⟩
  · intro h
    have hcond : (resolvedWeekKey dateArg now == getCurrentWeekStartDate now) = true :=
      beq_iff_eq.mpr h
    unfold leagueSet leagueClear
    simp only []
    rw [hcond]
    rw [if_pos rfl, if_pos rfl]
    exact ⟨rfl, rfl⟩

set_option maxRecDepth 400000 in
/-- Witness for C10: clearing or setting the settings of the old week
`2022-01-07` while the current week is `2024-05-03` leaves both caches
untouched. -/
theorem c10_set_clear_refresh_iff_current_week_witness :
    resolvedWeekKey (some ⟨19000, 0⟩) ⟨19846, 79200⟩
        ≠ getCurrentWeekStartDate ⟨19846, 79200⟩ ∧
    ((leagueSet (fun _ => (0 : ℕ)) (fun _ => "1") "9"
        ⟨[], [], [], ["S1 Names"], some 5, some 2, true⟩
        [("seed_name", "42")] (some ⟨19000, 0⟩) ⟨19846, 79200⟩).seedCache = some 5 ∧
      (leagueSet (fun _ => (0 : ℕ)) (fun _ => "1") "9"
        ⟨[], [], [], ["S1 Names"], some 5, some 2, true⟩
        [("seed_name", "42")] (some ⟨19000, 0⟩) ⟨19846, 79200⟩).seasonCache = some 2 ∧
      (leagueClear (fun _ => (0 : ℕ)) (fun _ => "1") "9"
        ⟨[], [], [], ["S1 Names"], some 5, some 2, true⟩
        (some ⟨19000, 0⟩) ⟨19846, 79200⟩).seedCache = some 5 ∧
      (leagueClear (fun _ => (0 : ℕ)) (fun _ => "1") "9"
        ⟨[], [], [], ["S1 Names"], some 5, some 2, true⟩
        (some ⟨19000, 0⟩) ⟨19846, 79200⟩).seasonCache = some 2) :=
  ⟨by decide,
   (c10_set_clear_refresh_iff_current_week (fun _ => (0 : ℕ)) (fun _ => "1") "9"
      ⟨[], [], [], ["S1 Names"], some 5, some 2, true⟩ [("seed_name", "42")]
      (some ⟨19000, 0⟩) ⟨19846, 79200⟩).1 (by decide)⟩

/-!
## Claim C6: the week-refresh auto-DNF
-/

theorem refreshCachedData_fields {α : Type} (apiFn : Finset (String × String) → α)
    (derive : String → String) (sysRand : String) (st : CogState α) (now : Instant) :
    (refreshCachedData apiFn derive sysRand st now).settings = st.settings ∧
    (refreshCachedData apiFn derive sysRand st now).ledger = st.ledger ∧
    (refreshCachedData apiFn derive sysRand st now).roster = st.roster := by
  unfold refreshCachedData
  cases leagueSeedParams st.settings derive sysRand now with
  | none => exact ⟨rfl, rfl, rfl⟩
  | some p =>
    simp only []
    cases hs : getActiveSeasonNumber st.titles with
    | none => simp [hs]
    | some n => simp [hs]

theorem refreshCachedData_seedCache {α : Type} (apiFn : Finset (String × String) → α)
    (derive : String → String) (sysRand : String) (st : CogState α) (now : Instant)
    (p : Finset (String × String))
    (hp : leagueSeedParams st.settings derive sysRand now = some p) :
    (refreshCachedData apiFn derive sysRand st now).seedCache = some (apiFn p) := by
  unfold refreshCachedData
  rw [hp]
  simp only []
  cases hs : getActiveSeasonNumber st.titles with
  | none => simp [hs]
  | some n => simp [hs]

theorem missingList_nodup (runners subs : List String) : (missingList runners subs).Nodup := by
  unfold missingList
  refine List.Nodup.append (runners.nodup_dedup.filter _) (subs.nodup_dedup.filter _) ?_
  intro a h1 h2
  simp [List.mem_filter, List.mem_dedup] at h1 h2
  exact h1.2 h2.1

theorem missingList_toFinset (runners subs : List String) :
    (missingList runners subs).toFinset = missingRunners runners subs := by
  unfold missingList missingRunners
  ext a
  simp [List.mem_filter, List.mem_dedup, Finset.mem_symmDiff]

/-- C6: on a Friday firing of the scheduled week refresh (no extension, the
seed computation succeeding), zero recorded submissions for the closing week
mean no ledger rows are appended while the cached seed artifact is still
refreshed; non-empty submissions mean exactly the closing week's missing
runners are appended, one row each, with the closing week key, time `DNF`
and vod `n/a` — `missingList` enumerates each member of the computed
missing set exactly once (it is nodup and its finset is `missingRunners`). -/
theorem c6_week_refresh_auto_dnf {α : Type} (apiFn : Finset (String × String) → α)
    (derive : String → String) (sysRand : String) (st : CogState α) (now : Instant)
    (p : Finset (String × String))
    (hfri : pyWeekday now.days = 4)
    (hext : shouldExtendWeek st.settings derive (now.subSecs 3600) = false)
    (hp : leagueSeedParams st.settings derive sysRand now = some p) :
    (getSubmissions st.ledger (getWeekStartDateStr (now.subSecs 3600)) = [] →
      (weekRefresh apiFn derive sysRand st now).ledger = st.ledger ∧
      (weekRefresh apiFn derive sysRand st now).seedCache = some (apiFn p)) ∧
    (getSubmissions st.ledger (getWeekStartDateStr (now.subSecs 3600)) ≠ [] →
      (weekRefresh apiFn derive sysRand st now).ledger = st.ledger ++
        (missingList st.roster
          (getSubmissions st.ledger (getWeekStartDateStr (now.subSecs 3600)))).map
          (fun r => ⟨getWeekStartDateStr (now.subSecs 3600), "n/a", r, "DNF", "n/a"⟩) ∧
      (weekRefresh apiFn derive sysRand st now).seedCache = some (apiFn p) ∧
      (missingList st.roster
        (getSubmissions st.ledger (getWeekStartDateStr (now.subSecs 3600)))).Nodup ∧
      (missingList st.roster
          (getSubmissions st.ledger (getWeekStartDateStr (now.subSecs 3600)))).toFinset
        = missingRunners st.roster
            (getSubmissions st.ledger (getWeekStartDateStr (now.subSecs 3600)))) := by
  obtain ⟨hs, hl, hr⟩ := refreshCachedData_fields apiFn derive sysRand st now
  have hsc := refreshCachedData_seedCache apiFn derive sysRand st now p hp
  have hnotfri : ¬ (pyWeekday now.days ≠ 4) := not_ne_iff.mpr hfri
  constructor
  · intro hsub
    unfold weekRefresh
    rw [if_neg hnotfri]
    simp only []
    rw [hs, hext]
    rw [if_neg Bool.false_ne_true]
    rw [hl, hsub]
    rw [if_pos List.isEmpty_nil]
    exact ⟨hl, hsc⟩
  · intro hsub
    unfold weekRefresh
    rw [if_neg hnotfri]
    simp only []
    rw [hs, hext]
    rw [if_neg Bool.false_ne_true]
    rw [hl, hr]
    rw [if_neg (by simp [List.isEmpty_iff, hsub])]
    exact ⟨rfl, hsc, missingList_nodup _ _, missingList_toFinset _ _⟩


set_option maxRecDepth 400000 in
/-- Witness for C6: on Friday 2024-05-10 21:00 Eastern, with roster
`[Alice, Bob]` and only Alice having submitted for the closing week
`2024-05-03`, the refresh appends exactly one DNF row for Bob and caches the
freshly computed seed artifact. -/
theorem c6_week_refresh_auto_dnf_witness :
    (weekRefresh (fun _ => (0 : ℕ)) (fun _ => "1") "9"
        ⟨[], [⟨"2024-05-03", "ts", "Alice", "01:00:00.000", "v"⟩], ["Alice", "Bob"],
          ["S1 Names"], none, none, false⟩ ⟨19853, 75600⟩).ledger
      = [⟨"2024-05-03", "ts", "Alice", "01:00:00.000", "v"⟩,
         ⟨"2024-05-03", "n/a", "Bob", "DNF", "n/a"⟩] ∧
    (weekRefresh (fun _ => (0 : ℕ)) (fun _ => "1") "9"
        ⟨[], [⟨"2024-05-03", "ts", "Alice", "01:00:00.000", "v"⟩], ["Alice", "Bob"],
          ["S1 Names"], none, none, false⟩ ⟨19853, 75600⟩).seedCache = some 0 := by
  have h := c6_week_refresh_auto_dnf (fun _ => (0 : ℕ)) (fun _ => "1") "9"
    ⟨[], [⟨"2024-05-03", "ts", "Alice", "01:00:00.000", "v"⟩], ["Alice", "Bob"],
      ["S1 Names"], none, none, false⟩ ⟨19853, 75600⟩ (defaultSeedParams "1")
    (by decide) (by decide) (by decide)
  have h2 := h.2 (by decide)
  refine ⟨?_, ?_⟩
  · rw [h2.1]
    decide
  · rw [h2.2.1]

/-!
## Claim C8: stored seed name and scalar defaults
-/

theorem buildParams_seed_mem {r : ResolvedSeedArgs} {vars : List String}
    {P : Finset (String × String)} (hp : buildParams r vars = some P) :
    ("seed", r.seedName) ∈ P := by
  unfold buildParams at hp
  split at hp
  · injection hp with hp
    subst hp
    simp
  · exact absurd hp (by simp)

theorem buildParams_relics_goal {r : ResolvedSeedArgs} {vars : List String}
    {P : Finset (String × String)} {c : String} (hp : buildParams r vars = some P)
    (hc : ("relics", c) ∈ P) : r.goalMode = "World Tour" := by
  unfold buildParams at hp
  split at hp
  · injection hp with hp
    subst hp
    by_contra hne
    rw [if_neg hne] at hc
    simp only [Finset.union_empty, Finset.mem_union, Finset.mem_insert,
      Finset.mem_singleton, List.mem_toFinset, List.mem_map, Prod.mk.injEq] at hc
    rcases hc with ((((h | ⟨x, -, h, -⟩) | (h | h | h | h)) | ⟨x, -, h, -⟩) | h)
    · exact absurd h.1 (by decide)
    · exact absurd h (by decide)
    · exact absurd h.1 (by decide)
    · exact absurd h.1 (by decide)
    · exact absurd h.1 (by decide)
    · exact absurd h.1 (by decide)
    · exact absurd h (by decide)
    · unfold presetSpecifics at h
      split_ifs at h <;> simp_all
  · exact absurd hp (by simp)

theorem buildParams_relics_of_worldTour {r : ResolvedSeedArgs} {vars : List String}
    {P : Finset (String × String)} (hp : buildParams r vars = some P)
    (hwt : r.goalMode = "World Tour") : ("relics", r.relicCount) ∈ P := by
  unfold buildParams at hp
  split at hp
  · injection hp with hp
    subst hp
    simp [hwt]
  · exact absurd hp (by simp)

/-- C8 (amended): whenever the seed request is built, a stored non-empty
`seed_name` is passed verbatim as the `seed` parameter (an empty stored
value falls back to the derived name, see the counterexample); each unset
scalar resolves to its documented default — logic `Standard`, key `Clues`,
goal `Force Trees`, spawn `Glades`, item pool `Standard`, relic count 8 —
and the `relics` parameter appears in the request iff the resolved goal
mode is `World Tour`. -/
theorem c8_seed_verbatim_and_defaults (settings : List Setting)
    (derive : String → String) (sysRand : String) (now : Instant)
    (P : Finset (String × String)) (v : String)
    (hp : leagueSeedParams settings derive sysRand now = some P) :
    (leagueScalar settings now "seed_name" = some v → v ≠ "" → ("seed", v) ∈ P) ∧
    (leagueScalar settings now "logic_mode" = none →
      (leagueResolvedArgs settings derive sysRand now).logicMode = "Standard") ∧
    (leagueScalar settings now "key_mode" = none →
      (leagueResolvedArgs settings derive sysRand now).keyMode = "Clues") ∧
    (leagueScalar settings now "goal_mode" = none →
      (leagueResolvedArgs settings derive sysRand now).goalMode = "Force Trees") ∧
    (leagueScalar settings now "spawn" = none →
      (leagueResolvedArgs settings derive sysRand now).spawn = "Glades") ∧
    (leagueScalar settings now "item_pool" = none →
      (leagueResolvedArgs settings derive sysRand now).itemPool = "Standard") ∧
    (leagueScalar settings now "relic_count" = none →
      (leagueResolvedArgs settings derive sysRand now).relicCount = "8") ∧
    (∀ c : String, ("relics", c) ∈ P →
      (leagueResolvedArgs settings derive sysRand now).goalMode = "World Tour") ∧
    ((leagueResolvedArgs settings derive sysRand now).goalMode = "World Tour" →
      ("relics", (leagueResolvedArgs settings derive sysRand now).relicCount) ∈ P) := by
  unfold leagueSeedParams at hp
  refine ⟨?_, ?_, ?_, ?_, ?_, ?_, ?_, ?_, ?_⟩
  · intro hv hne
    have hm := buildParams_seed_mem hp
    have : (leagueResolvedArgs settings derive sysRand now).seedName = v := by
      simp [leagueResolvedArgs, resolveSeedArgs, hv, pyOr, hne]
    rw [this] at hm
    exact hm
  · intro h
    simp [leagueResolvedArgs, resolveSeedArgs, h, pyOr]
  · intro h
    simp [leagueResolvedArgs, resolveSeedArgs, h, pyOr]
  · intro h
    simp [leagueResolvedArgs, resolveSeedArgs, h, pyOr]
  · intro h
    simp [leagueResolvedArgs, resolveSeedArgs, h, pyOr]
  · intro h
    simp [leagueResolvedArgs, resolveSeedArgs, h, pyOr]
  · intro h
    simp [leagueResolvedArgs, resolveSeedArgs, h, pyOr]
  · intro c hc
    exact buildParams_relics_goal hp hc
  · intro hwt
    exact buildParams_relics_of_worldTour hp hwt

set_option maxRecDepth 400000 in
/-- C8 counterexample: a stored `seed_name` with the empty-string value is
not passed verbatim: Python `or`-truthiness replaces it by the derived name
(here `"1"`), so the request carries `seed=1` and not the stored value. -/
theorem c8_empty_stored_seed_name_replaced :
    leagueScalar [⟨"2024-05-03", "seed_name", ""⟩] ⟨19846, 79200⟩ "seed_name" = some "" ∧
    leagueSeedParams [⟨"2024-05-03", "seed_name", ""⟩] (fun _ => "1") "9" ⟨19846, 79200⟩
      = some (defaultSeedParams "1") ∧
    ("seed", "") ∉ defaultSeedParams "1" ∧ ("seed", "1") ∈ defaultSeedParams "1" := by
  refine ⟨by decide, by decide, by decide, by decide⟩

set_option maxRecDepth 400000 in
/-- Witness for C8: the settings store holds `seed_name = "42"` and
`goal_mode = "World Tour"` for the current week; the request carries
`seed=42` verbatim and `relics=8` (the default relic count). -/
theorem c8_seed_verbatim_and_defaults_witness :
    leagueSeedParams [⟨"2024-05-03", "seed_name", "42"⟩, ⟨"2024-05-03", "goal_mode", "World Tour"⟩]
        (fun _ => "1") "9" ⟨19846, 79200⟩
      = some {("seed", "42"), ("path", "casual-core"), ("path", "casual-dboost"),
          ("path", "standard-core"), ("path", "standard-dboost"), ("path", "standard-lure"),
          ("path", "standard-abilities"), ("key_mode", "Clues"), ("var", "WorldTour"),
          ("pool_preset", "Standard"), ("spawn", "Glades"), ("relics", "8"),
          ("cell_freq", "40")} ∧
    ("seed", "42") ∈ ({("seed", "42"), ("path", "casual-core"), ("path", "casual-dboost"),
          ("path", "standard-core"), ("path", "standard-dboost"), ("path", "standard-lure"),
          ("path", "standard-abilities"), ("key_mode", "Clues"), ("var", "WorldTour"),
          ("pool_preset", "Standard"), ("spawn", "Glades"), ("relics", "8"),
          ("cell_freq", "40")} : Finset (String × String)) ∧
    ("relics", "8") ∈ ({("seed", "42"), ("path", "casual-core"), ("path", "casual-dboost"),
          ("path", "standard-core"), ("path", "standard-dboost"), ("path", "standard-lure"),
          ("path", "standard-abilities"), ("key_mode", "Clues"), ("var", "WorldTour"),
          ("pool_preset", "Standard"), ("spawn", "Glades"), ("relics", "8"),
          ("cell_freq", "40")} : Finset (String × String)) := by
  have h := c8_seed_verbatim_and_defaults
    [⟨"2024-05-03", "seed_name", "42"⟩, ⟨"2024-05-03", "goal_mode", "World Tour"⟩]
    (fun _ => "1") "9" ⟨19846, 79200⟩
    {("seed", "42"), ("path", "casual-core"), ("path", "casual-dboost"),
      ("path", "standard-core"), ("path", "standard-dboost"), ("path", "standard-lure"),
      ("path", "standard-abilities"), ("key_mode", "Clues"), ("var", "WorldTour"),
      ("pool_preset", "Standard"), ("spawn", "Glades"), ("relics", "8"),
      ("cell_freq", "40")} "42" (by decide)
  exact ⟨by decide, h.1 (by decide) (by decide), h.2.2.2.2.2.2.2.2 (by decide)⟩

end Gumo
